import Mathlib

/-!
# Verification of the kontext kubeconfig mutation engine

Shallow embedding of the core of the `kontext` CLI:

* `pkg/kubeconfig` — the kubeconfig mutation and consistency engine
  (`SwitchContext`, `DeleteContext`, namespace get/set, namespace
  enumeration with its offline fallback).  The persisted `api.Config`
  document is modelled as a record of association lists (Go maps with
  string keys); every operation follows the source's
  load → mutate → save shape and is embedded as a function
  `Config → Except KubeErr Config`, where the `.ok` payload is the
  document that `clientcmd.WriteToFile` persists and an `.error` result
  is returned before any save.  Go map values are non-nil pointers in
  this model (the `c != nil` guards in the source are vacuously true).
* `pkg/ui` — the pure selection-ordering functions `SortContexts` and
  `SortNamespaces` (`sort.Strings` is byte-lexicographic ascending on
  UTF-8 strings, which coincides with codepoint order, i.e. with the
  `LinearOrder String` instance).
-/

namespace Kontext

/-- Typed failures of the registry operations.  The source returns
`fmt.Errorf` values; the spec classifies them as `NotFound` (the named
context is absent) and `NoCurrentContext`. -/
inductive KubeErr where
  | notFound (name : String)
  | noCurrentContext
deriving DecidableEq, Repr

/-- Embedding of `api.Context`: the per-context entry of the kubeconfig,
restricted to the fields the core reads or writes (`Cluster`, `AuthInfo`,
`Namespace`). -/
structure KubeContext where
  Cluster : String
  AuthInfo : String
  Namespace : String
deriving DecidableEq, Repr

/-- Embedding of `api.Config`: the persisted configuration document.
Go maps become association lists from name to payload; `Clusters` and
`AuthInfos` payloads are opaque to the core, modelled as strings. -/
structure Config where
  CurrentContext : String
  Contexts : List (String × KubeContext)
  Clusters : List (String × String)
  AuthInfos : List (String × String)
deriving DecidableEq, Repr

/-- Go map lookup `m[k]` (`v, exists := m[k]`): first binding of `k`. -/
def mapLookup {α : Type} : List (String × α) → String → Option α
  | [], _ => none
  | (k', v) :: rest, k => if k' = k then some v else mapLookup rest k

/-- Go `delete(m, k)`: remove the binding of `k`. -/
def mapDelete {α : Type} : List (String × α) → String → List (String × α)
  | [], _ => []
  | p :: rest, k => if p.1 = k then mapDelete rest k else p :: mapDelete rest k

/-- A key is present in the map. -/
def mapHasKey {α : Type} (m : List (String × α)) (k : String) : Prop :=
  mapLookup m k ≠ none

instance {α : Type} [DecidableEq α] (m : List (String × α)) (k : String) :
    Decidable (mapHasKey m k) := by
  unfold mapHasKey; infer_instance

/-- `SwitchContext` (`pkg/kubeconfig/kubeconfig.go`): fail when the name is
not a key of `Contexts`, otherwise set `CurrentContext` and persist. -/
def SwitchContext (config : Config) (contextName : String) : Except KubeErr Config :=
  match mapLookup config.Contexts contextName with
  | none => .error (.notFound contextName)
  | some _ => .ok { config with CurrentContext := contextName }

/-- The `isClusterReferenced` closure inside `DeleteContext`: a cluster
name is referenced when it is non-empty and some (non-nil) context's
`Cluster` field equals it. -/
def isClusterReferenced (contexts : List (String × KubeContext)) (name : String) : Bool :=
  if name = "" then false
  else contexts.any (fun c => c.2.Cluster = name)

/-- The `isAuthInfoReferenced` closure inside `DeleteContext`. -/
def isAuthInfoReferenced (contexts : List (String × KubeContext)) (name : String) : Bool :=
  if name = "" then false
  else contexts.any (fun c => c.2.AuthInfo = name)

/-- `DeleteContext` (`pkg/kubeconfig/kubeconfig.go`): fail when the name is
absent; otherwise capture the context's `Cluster`/`AuthInfo` references,
remove the context, clear `CurrentContext` if it named the deleted
context, drop each captured non-empty reference that no remaining
context still uses, and persist. -/
def DeleteContext (config : Config) (contextName : String) : Except KubeErr Config :=
  match mapLookup config.Contexts contextName with
  | none => .error (.notFound contextName)
  | some ctx =>
    let clusterName := ctx.Cluster
    let authInfoName := ctx.AuthInfo
    let contexts' := mapDelete config.Contexts contextName
    let current' := if config.CurrentContext = contextName then "" else config.CurrentContext
    let clusters' :=
      if clusterName ≠ "" ∧ ¬ isClusterReferenced contexts' clusterName then
        mapDelete config.Clusters clusterName
      else config.Clusters
    let authInfos' :=
      if authInfoName ≠ "" ∧ ¬ isAuthInfoReferenced contexts' authInfoName then
        mapDelete config.AuthInfos authInfoName
      else config.AuthInfos
    .ok { CurrentContext := current', Contexts := contexts',
          Clusters := clusters', AuthInfos := authInfos' }

/-- `GetNamespaceForContext`: fail when the name is absent; otherwise the
stored namespace, substituting `"default"` for the empty field. -/
def GetNamespaceForContext (config : Config) (contextName : String) : Except KubeErr String :=
  match mapLookup config.Contexts contextName with
  | none => .error (.notFound contextName)
  | some ctx => if ctx.Namespace = "" then .ok "default" else .ok ctx.Namespace

/-- The in-place `context.Namespace = namespace` write: the map entry for
the looked-up key gets its `Namespace` field overwritten (the Go map
stores a pointer, so the assignment is visible in the map). -/
def setNsEntry : List (String × KubeContext) → String → String →
    List (String × KubeContext)
  | [], _, _ => []
  | p :: rest, k, ns =>
    if p.1 = k then (p.1, { p.2 with Namespace := ns }) :: setNsEntry rest k ns
    else p :: setNsEntry rest k ns

/-- `SetNamespaceForContext`: an empty `contextName` resolves to the
current context (failing when none is set); fail when the resolved name
is absent; otherwise overwrite that context's namespace and persist. -/
def SetNamespaceForContext (config : Config) (contextName ns : String) :
    Except KubeErr Config :=
  if contextName = "" ∧ config.CurrentContext = "" then .error .noCurrentContext
  else
    let resolved := if contextName = "" then config.CurrentContext else contextName
    match mapLookup config.Contexts resolved with
    | none => .error (.notFound resolved)
    | some _ => .ok { config with Contexts := setNsEntry config.Contexts resolved ns }

/-- Outcome of the cluster-connectivity steps of
`GetNamespacesForContext`, which are external I/O: each constructor is
one of the three fallible calls failing (`clientConfig.ClientConfig()`,
`kubernetes.NewForConfig`, `Namespaces().List`), or the listing
succeeding with the returned namespace names. -/
inductive ClusterStep where
  | clientConfigErr
  | newForConfigErr
  | listErr
  | listOk (items : List String)
deriving DecidableEq, Repr

/-- `GetNamespacesForContext` (`pkg/kubeconfig/kubeconfig.go`): resolve an
empty name to the current context, validate the context exists, then run
the connectivity steps (`step` is their externally determined outcome);
each of the three connectivity failures is absorbed into the literal
fallback list, and a successful listing returns the listed names. -/
def GetNamespacesForContext (config : Config) (contextName : String)
    (step : ClusterStep) : Except KubeErr (List String) :=
  if contextName = "" ∧ config.CurrentContext = "" then .error .noCurrentContext
  else
    let resolved := if contextName = "" then config.CurrentContext else contextName
    match mapLookup config.Contexts resolved with
    | none => .error (.notFound resolved)
    | some _ =>
      match step with
      | .clientConfigErr => .ok ["default", "kube-system", "kube-public", "kube-node-lease"]
      | .newForConfigErr => .ok ["default", "kube-system", "kube-public", "kube-node-lease"]
      | .listErr => .ok ["default", "kube-system", "kube-public", "kube-node-lease"]
      | .listOk items => .ok items

/-- The document persisted on disk after running an operation: the
operation's result on success (`WriteToFile` has overwritten the file),
the untouched previous document on failure (every failure in the source
is returned before `WriteToFile` is reached). -/
def persistAfter (config : Config) (r : Except KubeErr Config) : Config :=
  match r with
  | .ok c => c
  | .error _ => config

/-- `sort.Strings`: ascending lexicographic sort of a string slice.
UTF-8 byte order coincides with codepoint order, so the Go comparison is
the `LinearOrder String` order. -/
def sortStrings (l : List String) : List String :=
  l.mergeSort (fun a b => a ≤ b)

/-- The find-remove loop of `SortContexts`/`SortNamespaces`: scan for the
first element equal to `target`; when found, return the list with that
one occurrence removed (`append(sorted[:i], sorted[i+1:]...)`); `none`
when the loop finishes without a match (`found` stays false). -/
def removeFirst (target : String) : List String → Option (List String)
  | [] => none
  | x :: xs => if x = target then some xs else (removeFirst target xs).map (x :: ·)

/-- `SortContexts` (`pkg/ui/ui.go`): return an empty list unchanged;
otherwise sort a copy ascending, and when `prioritizeCurrent` is set and
`currentContext` non-empty, move the first occurrence of
`currentContext` (if any) to the front. -/
def SortContexts (contextNames : List String) (currentContext : String)
    (prioritizeCurrent : Bool) : List String :=
  if contextNames.length = 0 then contextNames
  else
    let sorted := sortStrings contextNames
    if prioritizeCurrent ∧ currentContext ≠ "" then
      match removeFirst currentContext sorted with
      | some rest => currentContext :: rest
      | none => sorted
    else sorted

/-- `SortNamespaces` (`pkg/ui/ui.go`): textually the same algorithm as
`SortContexts`, applied to namespace names. -/
def SortNamespaces (namespaces : List String) (currentNamespace : String)
    (prioritizeCurrent : Bool) : List String :=
  if namespaces.length = 0 then namespaces
  else
    let sorted := sortStrings namespaces
    if prioritizeCurrent ∧ currentNamespace ≠ "" then
      match removeFirst currentNamespace sorted with
      | some rest => currentNamespace :: rest
      | none => sorted
    else sorted

/-! ### Helper lemmas about the embedded primitives -/

theorem sortStrings_perm (l : List String) : (sortStrings l).Perm l :=
  List.mergeSort_perm l _

theorem sortStrings_sorted (l : List String) : (sortStrings l).Sorted (· ≤ ·) := by
  have h : (l.mergeSort fun a b : String => decide (a ≤ b)).Pairwise
      (fun a b : String => decide (a ≤ b) = true) :=
    List.sorted_mergeSort
      (fun (a b c : String) (hab : decide (a ≤ b) = true) (hbc : decide (b ≤ c) = true) =>
        decide_eq_true (le_trans (of_decide_eq_true hab) (of_decide_eq_true hbc)))
      (fun a b => by
        by_cases hab : a ≤ b
        · simp [hab]
        · simp [le_of_not_le hab]) l
  exact h.imp (fun hab => of_decide_eq_true hab)

theorem sortStrings_length (l : List String) : (sortStrings l).length = l.length :=
  (sortStrings_perm l).length_eq

theorem removeFirst_of_not_mem {t : String} :
    ∀ {l : List String}, t ∉ l → removeFirst t l = none := by
  intro l
  induction l with
  | nil => intro _; rfl
  | cons x xs ih =>
    intro h
    have hx : x ≠ t := fun hxt => h (hxt ▸ List.mem_cons_self x xs)
    have ht : t ∉ xs := fun hmem => h (List.mem_cons_of_mem x hmem)
    simp [removeFirst, hx, ih ht]

theorem removeFirst_of_mem {t : String} :
    ∀ {l : List String}, t ∈ l → removeFirst t l = some (l.erase t) := by
  intro l
  induction l with
  | nil => intro h; cases h
  | cons x xs ih =>
    intro h
    by_cases hx : x = t
    · subst hx
      simp [removeFirst, List.erase_cons_head]
    · have ht : t ∈ xs := by
        rcases List.mem_cons.mp h with h1 | h2
        · exact absurd h1.symm hx
        · exact h2
      have hbeq : (x == t) = false := beq_eq_false_iff_ne.mpr hx
      simp [removeFirst, hx, ih ht, List.erase_cons, hbeq]

theorem sortContexts_no_prioritize (names : List String) (cur : String) (b : Bool)
    (h : b = false ∨ cur = "") :
    SortContexts names cur b = if names.length = 0 then names else sortStrings names := by
  unfold SortContexts
  rcases h with hb | hcur
  · subst hb; simp
  · subst hcur; simp

theorem sortNamespaces_eq_sortContexts : SortNamespaces = SortContexts := rfl

/-! ### The claims about SelectionOrdering -/

/-- C6: for every input list, `order(names, "", false)` (both
`SortContexts` and `SortNamespaces`) returns a permutation of `names`
sorted in ascending lexicographic order — same length, same multiset of
elements — and the empty input yields the empty output.  (The input is
never mutated: the embedding is a pure function of the input list.) -/
theorem C6_order_unprioritized_sorts (names : List String) :
    (SortContexts names "" false).Perm names ∧
    (SortContexts names "" false).Sorted (· ≤ ·) ∧
    (SortContexts names "" false).length = names.length ∧
    SortContexts ([] : List String) "" false = [] ∧
    SortNamespaces names "" false = SortContexts names "" false := by
  have he : SortContexts names "" false = if names.length = 0 then names else sortStrings names :=
    sortContexts_no_prioritize names "" false (Or.inl rfl)
  refine ⟨?_, ?_, ?_, rfl, by rw [sortNamespaces_eq_sortContexts]⟩
  · rw [he]
    by_cases h : names.length = 0
    · simp [h]
    · simpa [h] using sortStrings_perm names
  · rw [he]
    by_cases h : names.length = 0
    · simp [h, List.length_eq_zero.mp h]
    · simpa [h] using sortStrings_sorted names
  · rw [he]
    by_cases h : names.length = 0
    · simp [h]
    · simpa [h] using sortStrings_length names

/-- C7: with prioritization requested and a non-empty current name, the
output places the current name at index 0 followed by the sorted list
with its first occurrence of the current name removed (relative order
preserved); when the current name is absent the sorted list is returned
as-is, without failing. -/
theorem C7_order_prioritized (names : List String) (cur : String) (hcur : cur ≠ "") :
    (cur ∈ names →
      SortContexts names cur true = cur :: (SortContexts names "" false).erase cur ∧
      (SortContexts names cur true).head? = some cur) ∧
    (cur ∉ names → SortContexts names cur true = SortContexts names "" false) := by
  have hplain := sortContexts_no_prioritize names "" false (Or.inl rfl)
  constructor
  · intro hmem
    have hne : ¬ names.length = 0 := by
      intro h0; rw [List.length_eq_zero.mp h0] at hmem; cases hmem
    have hmem' : cur ∈ sortStrings names := ((sortStrings_perm names).mem_iff).mpr hmem
    have hrf := removeFirst_of_mem hmem'
    have hmain : SortContexts names cur true = cur :: (sortStrings names).erase cur := by
      unfold SortContexts
      rw [if_neg hne]
      simp [hcur, hrf]
    refine ⟨?_, by rw [hmain]; rfl⟩
    rw [hmain, hplain, if_neg hne]
  · intro hmem
    have hmem' : cur ∉ sortStrings names := fun h =>
      hmem (((sortStrings_perm names).mem_iff).mp h)
    have hrf := removeFirst_of_not_mem hmem'
    rw [hplain]
    unfold SortContexts
    by_cases hne : names.length = 0
    · simp [hne]
    · rw [if_neg hne, if_neg hne]
      simp [hcur, hrf]

/-- Witness for C7 at the source's own test vectors. -/
theorem C7_order_prioritized_witness :
    SortContexts ["zebra", "alpha", "beta"] "beta" true =
      "beta" :: (SortContexts ["zebra", "alpha", "beta"] "" false).erase "beta" ∧
    SortContexts ["alpha", "beta", "gamma"] "delta" true =
      SortContexts ["alpha", "beta", "gamma"] "" false := by
  constructor
  · exact ((C7_order_prioritized ["zebra", "alpha", "beta"] "beta" (by decide)).1
      (by decide)).1
  · exact (C7_order_prioritized ["alpha", "beta", "gamma"] "delta" (by decide)).2
      (by decide)

/-- C10: when prioritization is off, or the highlighted name is empty,
the output of `SortContexts`/`SortNamespaces` is independent of the
highlighted name: any two such runs on the same list coincide, and equal
the plain sorted copy. -/
theorem C10_order_independent_of_current (names : List String) (cur₁ cur₂ : String)
    (b₁ b₂ : Bool) (h₁ : b₁ = false ∨ cur₁ = "") (h₂ : b₂ = false ∨ cur₂ = "") :
    SortContexts names cur₁ b₁ = SortContexts names cur₂ b₂ ∧
    SortNamespaces names cur₁ b₁ = SortNamespaces names cur₂ b₂ ∧
    SortContexts names cur₁ b₁ = SortContexts names "" false := by
  have e₁ := sortContexts_no_prioritize names cur₁ b₁ h₁
  have e₂ := sortContexts_no_prioritize names cur₂ b₂ h₂
  have e₃ := sortContexts_no_prioritize names "" false (Or.inl rfl)
  refine ⟨e₁.trans e₂.symm, ?_, e₁.trans e₃.symm⟩
  rw [sortNamespaces_eq_sortContexts]
  exact e₁.trans e₂.symm

/-- Witness for C10: two different highlighted names, identical output. -/
theorem C10_order_independent_witness :
    SortContexts ["b", "a"] "a" false = SortContexts ["b", "a"] "zzz" false :=
  (C10_order_independent_of_current ["b", "a"] "a" "zzz" false false
    (Or.inl rfl) (Or.inl rfl)).1

/-! ### Helper lemmas about the map primitives and DeleteContext -/

theorem mapLookup_mapDelete_self {α : Type} (m : List (String × α)) (k : String) :
    mapLookup (mapDelete m k) k = none := by
  induction m with
  | nil => rfl
  | cons p rest ih =>
    by_cases h : p.1 = k
    · simp [mapDelete, h, ih]
    · simp [mapDelete, mapLookup, h, ih]

theorem mapLookup_mapDelete_ne {α : Type} (m : List (String × α)) (k0 k : String)
    (h : k ≠ k0) : mapLookup (mapDelete m k0) k = mapLookup m k := by
  induction m with
  | nil => rfl
  | cons p rest ih =>
    by_cases hp : p.1 = k0
    · have hpk : p.1 ≠ k := by rw [hp]; exact fun he => h he.symm
      simp [mapDelete, mapLookup, hp, hpk, Ne.symm h, ih]
    · by_cases hk : p.1 = k
      · simp [mapDelete, mapLookup, hp, hk, h]
      · simp [mapDelete, mapLookup, hp, hk, ih]

theorem isClusterReferenced_iff (contexts : List (String × KubeContext)) (n : String)
    (hn : n ≠ "") :
    isClusterReferenced contexts n = true ↔ ∃ p ∈ contexts, p.2.Cluster = n := by
  unfold isClusterReferenced
  rw [if_neg hn]
  simp [List.any_eq_true]

theorem isAuthInfoReferenced_iff (contexts : List (String × KubeContext)) (n : String)
    (hn : n ≠ "") :
    isAuthInfoReferenced contexts n = true ↔ ∃ p ∈ contexts, p.2.AuthInfo = n := by
  unfold isAuthInfoReferenced
  rw [if_neg hn]
  simp [List.any_eq_true]

theorem mapLookup_setNsEntry_self (m : List (String × KubeContext)) (k ns : String)
    (ctx : KubeContext) (h : mapLookup m k = some ctx) :
    mapLookup (setNsEntry m k ns) k = some { ctx with Namespace := ns } := by
  induction m with
  | nil => cases h
  | cons p rest ih =>
    by_cases hp : p.1 = k
    · have hctx : p.2 = ctx := by simpa [mapLookup, hp] using h
      simp [mapLookup, setNsEntry, hp, hctx]
    · have h' : mapLookup rest k = some ctx := by simpa [mapLookup, hp] using h
      simpa [mapLookup, setNsEntry, hp] using ih h'

/-- The `.ok` result of `DeleteContext` on an existing context, spelled
out field by field. -/
theorem DeleteContext_eq_ok (config : Config) (name : String) (ctx : KubeContext)
    (hctx : mapLookup config.Contexts name = some ctx) :
    DeleteContext config name = .ok {
      CurrentContext := if config.CurrentContext = name then "" else config.CurrentContext,
      Contexts := mapDelete config.Contexts name,
      Clusters :=
        if ctx.Cluster ≠ "" ∧ ¬ isClusterReferenced (mapDelete config.Contexts name) ctx.Cluster
        then mapDelete config.Clusters ctx.Cluster else config.Clusters,
      AuthInfos :=
        if ctx.AuthInfo ≠ "" ∧ ¬ isAuthInfoReferenced (mapDelete config.Contexts name) ctx.AuthInfo
        then mapDelete config.AuthInfos ctx.AuthInfo else config.AuthInfos } := by
  unfold DeleteContext
  rw [hctx]

/-! ### Sample documents used by the witnesses and counterexamples -/

/-- Sample document: contexts `a` and `b` share cluster `cx`, own
separate auth-infos `ux`/`uy`; `orph` is an already-orphaned cluster;
the current context is `a` and its namespace field is empty. -/
def cfgA : Config :=
  { CurrentContext := "a",
    Contexts := [("a", ⟨"cx", "ux", ""⟩), ("b", ⟨"cx", "uy", "nsb"⟩)],
    Clusters := [("cx", "cluster-x"), ("orph", "orphan-cluster")],
    AuthInfos := [("ux", "user-x"), ("uy", "user-y")] }

/-- The document persisted by `DeleteContext cfgA "a"`: context `a`
gone, current context cleared, shared cluster `cx` and orphan `orph`
kept, exclusive auth-info `ux` pruned. -/
def cfgAdel : Config :=
  { CurrentContext := "",
    Contexts := [("b", ⟨"cx", "uy", "nsb"⟩)],
    Clusters := [("cx", "cluster-x"), ("orph", "orphan-cluster")],
    AuthInfos := [("uy", "user-y")] }

/-! ### The claims about ContextRegistry -/

/-- C2: after deleting an existing context, the current-context field is
cleared to the empty string when it named the deleted context and is
left unchanged otherwise; in particular (for the non-degenerate case of
a non-empty context name) it never points at the deleted entry. -/
theorem C2_delete_current_pointer (config : Config) (name : String) (ctx : KubeContext)
    (config' : Config) (hctx : mapLookup config.Contexts name = some ctx)
    (hdel : DeleteContext config name = .ok config') :
    (config.CurrentContext = name → config'.CurrentContext = "") ∧
    (config.CurrentContext ≠ name → config'.CurrentContext = config.CurrentContext) ∧
    (name ≠ "" → config'.CurrentContext ≠ name) := by
  have hc := Except.ok.inj ((DeleteContext_eq_ok config name ctx hctx).symm.trans hdel)
  subst hc
  refine ⟨fun h => by simp [h], fun h => by simp [h], fun h => ?_⟩
  by_cases hcc : config.CurrentContext = name
  · simpa [hcc] using fun he => h he.symm
  · simp [hcc]

/-- Witness for C2 on the sample document: deleting the current context
`a` clears the current-context field. -/
theorem C2_delete_current_pointer_witness : cfgAdel.CurrentContext = "" := by
  have h := C2_delete_current_pointer cfgA "a" ⟨"cx", "ux", ""⟩ cfgAdel rfl rfl
  exact h.1 rfl

/-- C3: deleting or switching to a nonexistent context name fails with
`NotFound`, and the persisted document is unchanged: the failure is
returned before any mutation or save. -/
theorem C3_missing_name_error (config : Config) (name : String)
    (habs : mapLookup config.Contexts name = none) :
    DeleteContext config name = .error (.notFound name) ∧
    SwitchContext config name = .error (.notFound name) ∧
    persistAfter config (DeleteContext config name) = config ∧
    persistAfter config (SwitchContext config name) = config := by
  have hd : DeleteContext config name = .error (.notFound name) := by
    unfold DeleteContext; rw [habs]
  have hs : SwitchContext config name = .error (.notFound name) := by
    unfold SwitchContext; rw [habs]
  exact ⟨hd, hs, by rw [hd]; rfl, by rw [hs]; rfl⟩

/-- Witness for C3: the sample document has no context `zz`. -/
theorem C3_missing_name_error_witness :
    DeleteContext cfgA "zz" = .error (.notFound "zz") ∧
    persistAfter cfgA (SwitchContext cfgA "zz") = cfgA := by
  have h := C3_missing_name_error cfgA "zz" rfl
  exact ⟨h.1, h.2.2.2⟩

/-- C4: `SwitchContext` fails with `NotFound` exactly when the name is
not a key of `Contexts`; on success it sets the current-context field to
the name and changes nothing else; switching to the already-current name
returns the document unchanged and is not an error. -/
theorem C4_switch_correct (config : Config) (name : String) :
    (SwitchContext config name = .error (.notFound name) ↔
      mapLookup config.Contexts name = none) ∧
    (mapHasKey config.Contexts name →
      SwitchContext config name = .ok { config with CurrentContext := name }) ∧
    (mapHasKey config.Contexts name → config.CurrentContext = name →
      SwitchContext config name = .ok config) := by
  have hok : mapHasKey config.Contexts name →
      SwitchContext config name = .ok { config with CurrentContext := name } := by
    intro h
    cases hl : mapLookup config.Contexts name with
    | none => exact absurd hl h
    | some ctx => unfold SwitchContext; rw [hl]
  refine ⟨⟨?_, ?_⟩, hok, ?_⟩
  · intro h
    cases hl : mapLookup config.Contexts name with
    | none => rfl
    | some ctx =>
      unfold SwitchContext at h
      rw [hl] at h
      cases h
  · intro h
    unfold SwitchContext
    rw [h]
  · intro h hcur
    rw [hok h, ← hcur]

/-- Witness for C4: switching the sample document to `b`, and the
idempotent switch to the already-current `a`. -/
theorem C4_switch_correct_witness :
    SwitchContext cfgA "b" = .ok { cfgA with CurrentContext := "b" } ∧
    SwitchContext cfgA "a" = .ok cfgA := by
  exact ⟨(C4_switch_correct cfgA "b").2.1 (by decide),
    (C4_switch_correct cfgA "a").2.2 (by decide) rfl⟩

/-- C9: deleting an existing context removes at most that context's own
captured cluster and auth-info entries: every cluster and auth-info
binding under a different key — orphans included — and every other
context binding is unchanged, and an empty captured reference leaves the
corresponding map entirely unmodified. -/
theorem C9_delete_frame (config : Config) (name : String) (ctx : KubeContext)
    (config' : Config) (hctx : mapLookup config.Contexts name = some ctx)
    (hdel : DeleteContext config name = .ok config') :
    (∀ k, k ≠ ctx.Cluster → mapLookup config'.Clusters k = mapLookup config.Clusters k) ∧
    (∀ k, k ≠ ctx.AuthInfo → mapLookup config'.AuthInfos k = mapLookup config.AuthInfos k) ∧
    (∀ k, k ≠ name → mapLookup config'.Contexts k = mapLookup config.Contexts k) ∧
    (ctx.Cluster = "" → config'.Clusters = config.Clusters) ∧
    (ctx.AuthInfo = "" → config'.AuthInfos = config.AuthInfos) := by
  have hc := Except.ok.inj ((DeleteContext_eq_ok config name ctx hctx).symm.trans hdel)
  subst hc
  refine ⟨?_, ?_, ?_, ?_, ?_⟩
  · intro k hk
    dsimp only
    split
    · exact mapLookup_mapDelete_ne _ _ _ hk
    · rfl
  · intro k hk
    dsimp only
    split
    · exact mapLookup_mapDelete_ne _ _ _ hk
    · rfl
  · intro k hk
    exact mapLookup_mapDelete_ne _ _ _ hk
  · intro h
    dsimp only
    rw [if_neg (fun hand => hand.1 h)]
  · intro h
    dsimp only
    rw [if_neg (fun hand => hand.1 h)]

/-- Witness for C9: deleting `a` from the sample document leaves the
orphaned cluster `orph`, the other auth-info `uy` and the other context
`b` untouched. -/
theorem C9_delete_frame_witness :
    mapLookup cfgAdel.Clusters "orph" = mapLookup cfgA.Clusters "orph" ∧
    mapLookup cfgAdel.AuthInfos "uy" = mapLookup cfgA.AuthInfos "uy" ∧
    mapLookup cfgAdel.Contexts "b" = mapLookup cfgA.Contexts "b" := by
  have h := C9_delete_frame cfgA "a" ⟨"cx", "ux", ""⟩ cfgAdel rfl rfl
  exact ⟨h.1 "orph" (by decide), h.2.1 "uy" (by decide), h.2.2.1 "b" (by decide)⟩

/-- Counterexample document for C1: the sole context carries an empty
cluster reference while the clusters map has a binding keyed by the
empty string. -/
def cfgEmptyRef : Config :=
  { CurrentContext := "A",
    Contexts := [("A", ⟨"", "", ""⟩)],
    Clusters := [("", "empty-named-cluster")],
    AuthInfos := [] }

/-- The document `DeleteContext cfgEmptyRef "A"` persists. -/
def cfgEmptyRefDel : Config :=
  { CurrentContext := "",
    Contexts := [],
    Clusters := [("", "empty-named-cluster")],
    AuthInfos := [] }

/-- C1 counterexample: deleting `A` leaves no remaining context at all,
so no remaining context references the captured cluster reference `""`;
yet the binding keyed `""` stays in `Clusters`, because the source's
`clusterName != ""` guard skips the pruning rescan for empty captured
references.  This refutes the claimed unconditional "removed exactly
when no remaining context references that cluster name". -/
theorem C1_counterexample :
    mapLookup cfgEmptyRef.Contexts "A" = some ⟨"", "", ""⟩ ∧
    DeleteContext cfgEmptyRef "A" = .ok cfgEmptyRefDel ∧
    cfgEmptyRefDel.Contexts = [] ∧
    mapLookup cfgEmptyRefDel.Clusters "" = some "empty-named-cluster" :=
  ⟨rfl, rfl, rfl, rfl⟩

/-- C1 (amended): deleting an existing context removes it from
`Contexts` and prunes by rescanning the surviving contexts, where the
pruning rule applies to non-empty captured references: a non-empty
captured cluster reference is removed from `Clusters` exactly when no
remaining context references it (one still referenced is left intact),
independently likewise for the captured auth-info reference against
`AuthInfos`, and an empty captured reference leaves the corresponding
map unmodified. -/
theorem C1_delete_prunes_unreferenced (config : Config) (name : String)
    (ctx : KubeContext) (config' : Config)
    (hctx : mapLookup config.Contexts name = some ctx)
    (hdel : DeleteContext config name = .ok config') :
    mapLookup config'.Contexts name = none ∧
    (ctx.Cluster ≠ "" →
      ((∃ p ∈ config'.Contexts, p.2.Cluster = ctx.Cluster) →
        config'.Clusters = config.Clusters) ∧
      (¬ (∃ p ∈ config'.Contexts, p.2.Cluster = ctx.Cluster) →
        config'.Clusters = mapDelete config.Clusters ctx.Cluster)) ∧
    (ctx.Cluster = "" → config'.Clusters = config.Clusters) ∧
    (ctx.AuthInfo ≠ "" →
      ((∃ p ∈ config'.Contexts, p.2.AuthInfo = ctx.AuthInfo) →
        config'.AuthInfos = config.AuthInfos) ∧
      (¬ (∃ p ∈ config'.Contexts, p.2.AuthInfo = ctx.AuthInfo) →
        config'.AuthInfos = mapDelete config.AuthInfos ctx.AuthInfo)) ∧
    (ctx.AuthInfo = "" → config'.AuthInfos = config.AuthInfos) := by
  have hc := Except.ok.inj ((DeleteContext_eq_ok config name ctx hctx).symm.trans hdel)
  subst hc
  refine ⟨mapLookup_mapDelete_self _ _, ?_, ?_, ?_, ?_⟩
  · intro hne
    constructor
    · intro hex
      dsimp only
      rw [if_neg]
      rintro ⟨-, hnotref⟩
      exact hnotref ((isClusterReferenced_iff _ _ hne).mpr hex)
    · intro hnex
      dsimp only
      rw [if_pos]
      exact ⟨hne, fun href => hnex ((isClusterReferenced_iff _ _ hne).mp href)⟩
  · intro h
    dsimp only
    rw [if_neg (fun hand => hand.1 h)]
  · intro hne
    constructor
    · intro hex
      dsimp only
      rw [if_neg]
      rintro ⟨-, hnotref⟩
      exact hnotref ((isAuthInfoReferenced_iff _ _ hne).mpr hex)
    · intro hnex
      dsimp only
      rw [if_pos]
      exact ⟨hne, fun href => hnex ((isAuthInfoReferenced_iff _ _ hne).mp href)⟩
  · intro h
    dsimp only
    rw [if_neg (fun hand => hand.1 h)]

/-- Witness for the amended C1 on the sample document: deleting `a`
keeps the still-shared cluster `cx`, prunes the exclusive auth-info
`ux`, and removes the context itself. -/
theorem C1_delete_prunes_witness :
    cfgAdel.Clusters = cfgA.Clusters ∧
    cfgAdel.AuthInfos = mapDelete cfgA.AuthInfos "ux" ∧
    mapLookup cfgAdel.Contexts "a" = none := by
  have h := C1_delete_prunes_unreferenced cfgA "a" ⟨"cx", "ux", ""⟩ cfgAdel rfl rfl
  exact ⟨(h.2.1 (by decide)).1 ⟨("b", ⟨"cx", "uy", "nsb"⟩), by decide, rfl⟩,
    (h.2.2.2.1 (by decide)).2 (by decide), h.1⟩

/-- Document for the C5 counterexample: a context whose name is the
empty string coexists with the current context `b`. -/
def cfgEmptyName : Config :=
  { CurrentContext := "b",
    Contexts := [("", ⟨"c", "u", "x"⟩), ("b", ⟨"c", "u", "y"⟩)],
    Clusters := [("c", "cluster-c")],
    AuthInfos := [("u", "user-u")] }

/-- The document persisted by `SetNamespaceForContext cfgEmptyName "" "z"`:
the empty name resolves to the current context `b`, so `b`'s namespace
is overwritten while the context actually keyed `""` is untouched. -/
def cfgEmptyNameSet : Config :=
  { cfgEmptyName with
    Contexts := [("", ⟨"c", "u", "x"⟩), ("b", ⟨"c", "u", "z"⟩)] }

/-- C5 counterexample: `""` is an existing context name, yet the round
trip set-then-get at name `""` returns the untouched `"x"` rather than
the written `"z"`, because `SetNamespaceForContext` resolves an empty
name to the current context instead of the context keyed `""`. -/
theorem C5_counterexample :
    mapLookup cfgEmptyName.Contexts "" = some ⟨"c", "u", "x"⟩ ∧
    SetNamespaceForContext cfgEmptyName "" "z" = .ok cfgEmptyNameSet ∧
    GetNamespaceForContext cfgEmptyNameSet "" = .ok "x" ∧
    GetNamespaceForContext cfgEmptyNameSet "b" = .ok "z" :=
  ⟨rfl, rfl, rfl, rfl⟩

/-- C5 (amended): for every existing context name the getter returns the
stored namespace field, substituting `"default"` when it is empty; and
for every NON-empty existing name the round trip set-then-get yields the
written value — `"default"` when the empty string was written, which is
legal, not an error.  (An empty name is resolved by the setter to the
current context, so the round trip at the name `""` is not
guaranteed.) -/
theorem C5_namespace_roundtrip (config : Config) (name : String) (ctx : KubeContext)
    (ns : String) (hctx : mapLookup config.Contexts name = some ctx) :
    GetNamespaceForContext config name =
      .ok (if ctx.Namespace = "" then "default" else ctx.Namespace) ∧
    (name ≠ "" →
      SetNamespaceForContext config name ns =
        .ok { config with Contexts := setNsEntry config.Contexts name ns } ∧
      GetNamespaceForContext
          { config with Contexts := setNsEntry config.Contexts name ns } name =
        .ok (if ns = "" then "default" else ns)) := by
  constructor
  · simp only [GetNamespaceForContext, hctx]
    by_cases h : ctx.Namespace = "" <;> simp [h]
  · intro hname
    have hset : SetNamespaceForContext config name ns =
        .ok { config with Contexts := setNsEntry config.Contexts name ns } := by
      simp only [SetNamespaceForContext]
      rw [if_neg (fun hand => hname hand.1), if_neg hname, hctx]
    have hlook := mapLookup_setNsEntry_self config.Contexts name ns ctx hctx
    refine ⟨hset, ?_⟩
    simp only [GetNamespaceForContext]
    rw [hlook]
    by_cases h : ns = "" <;> simp [h]

/-- Witness for the amended C5 on the sample document: context `a` has
an empty namespace field, read back as `"default"`; writing `"team"`
then reading yields `"team"`. -/
theorem C5_namespace_roundtrip_witness :
    GetNamespaceForContext cfgA "a" = .ok "default" ∧
    GetNamespaceForContext
        { cfgA with Contexts := setNsEntry cfgA.Contexts "a" "team" } "a" =
      .ok "team" := by
  have h := C5_namespace_roundtrip cfgA "a" ⟨"cx", "ux", ""⟩ "team" rfl
  exact ⟨h.1, (h.2 (by decide)).2⟩

/-- C8: once the context is resolved (an empty name means the current
context) and validated, each of the three cluster-connectivity failures
— building the client configuration, constructing the client, executing
the listing call — is absorbed rather than returned as an error, and the
result is exactly the fixed fallback sequence
`["default", "kube-system", "kube-public", "kube-node-lease"]`. -/
theorem C8_namespaces_fallback (config : Config) (name : String)
    (hres : ¬ (name = "" ∧ config.CurrentContext = ""))
    (hmem : mapHasKey config.Contexts (if name = "" then config.CurrentContext else name)) :
    GetNamespacesForContext config name .clientConfigErr =
      .ok ["default", "kube-system", "kube-public", "kube-node-lease"] ∧
    GetNamespacesForContext config name .newForConfigErr =
      .ok ["default", "kube-system", "kube-public", "kube-node-lease"] ∧
    GetNamespacesForContext config name .listErr =
      .ok ["default", "kube-system", "kube-public", "kube-node-lease"] := by
  cases hl : mapLookup config.Contexts (if name = "" then config.CurrentContext else name) with
  | none => exact absurd hl hmem
  | some ctx =>
    refine ⟨?_, ?_, ?_⟩ <;>
    · simp only [GetNamespacesForContext, if_neg hres]
      rw [hl]

/-- Witness for C8: the sample document with an empty context name
resolving to the current context `a`; a failing listing call yields the
fallback. -/
theorem C8_namespaces_fallback_witness :
    GetNamespacesForContext cfgA "" ClusterStep.listErr =
      .ok ["default", "kube-system", "kube-public", "kube-node-lease"] :=
  (C8_namespaces_fallback cfgA "" (by decide) (by decide)).2.2

end Kontext
